import Mathlib

/-
Verification development for the my-tutor-bot backend.

The Python backend (src/backend) is shallowly embedded: pure string
manipulation becomes Lean functions on String / List Char, the Chroma
collection and the SQLite conversation table become explicit list-valued
states, and the external collaborators (the LLM, the embedding model, the
PDF reader) are modelled by their observable inputs and outputs as the
code consumes them.  Every definition is translated from the source file
it names, except where a doc comment says it is modelled from the spec
(external collaborators whose code is not in the repository).
-/

/-! ## Definitions: the shallow embedding of the backend -/

/-- Python substring membership test, on explicit character lists:
the needle occurs contiguously inside the haystack. -/
def containsSub (needle : List Char) : List Char → Bool
  | [] => needle.isEmpty
  | c :: rest => needle.isPrefixOf (c :: rest) || containsSub needle rest

/-- Python expression `needle in hay` on strings. -/
def pyContains (hay needle : String) : Bool :=
  containsSub needle.data hay.data

/-- Python slice `s[:n]`. -/
def pyTake (s : String) (n : Nat) : String :=
  ⟨s.data.take n⟩

/-- ASCII whitespace stripped by Python `str.strip()` with no arguments
(space, tab, newline, carriage return, vertical tab, form feed). -/
def isPySpace (c : Char) : Bool :=
  c == ' ' || c == '\t' || c == '\n' || c == '\r' ||
    c == Char.ofNat 11 || c == Char.ofNat 12

/-- Python `s.strip()`: drop whitespace from both ends. -/
def pyStrip (s : String) : String :=
  ⟨((s.data.dropWhile isPySpace).reverse.dropWhile isPySpace).reverse⟩

/-- From src/backend/its.py, apply_its_mode: the hint and socratic modes
prepend an instruction block in front of the question; every other mode
returns the question unchanged. -/
def apply_its_mode (question : String) (mode : String) : String :=
  if mode == "hint" then
    "Give a helpful hint without revealing the full answer.\n\nQuestion:\n" ++ question
  else if mode == "socratic" then
    "Guide the student using questions instead of direct answers.\n\nQuestion:\n" ++ question
  else
    question

/-- One entry of the chat_history argument of query_rag: a dict with
role and content keys. -/
structure ChatMsg where
  role : String
  content : String

/-- From query_rag, lines 170-175: history_str is empty for an empty
history, and otherwise the newline join of ROLE: content lines, where the
role is upper-cased, in list order. -/
def formatHistory (h : List ChatMsg) : String :=
  if h.isEmpty then ""
  else String.intercalate "\n" (h.map (fun m => m.role.toUpper ++ ": " ++ m.content))

/-- From query_rag, lines 185-194: the single synthesis prompt, an
f-string placing the system prompt, then the formatted history, then the
question, with the fixed framing text between them. -/
def buildFullQuery (system_prompt : String) (question : String) (h : List ChatMsg) : String :=
  "\n" ++ system_prompt ++
    "\n\nPREVIOUS CONVERSATION HISTORY:\n" ++ formatHistory h ++
    "\n\nINSTRUCTION:\nBased on the course materials provided and the conversation history above, answer this question:\n" ++
    question ++ "\n"

/-- Observable state of one PDF file as get_accurate_page_number consumes
it: either it cannot be opened or read at all (missing locally and in S3,
or pypdf raises on open), or it is readable with a list of pages, where a
page is none when page.extract_text() raises and some text otherwise. -/
inductive PdfAccess where
  | unreadable : PdfAccess
  | readable : List (Option String) → PdfAccess

/-- The match condition of the scan loop, line 108 of rag_engine.py:
the search text occurs in the page text, or its first 30 characters do. -/
def pageHit (search_text : String) (text : String) : Bool :=
  pyContains text search_text || pyContains text (pyTake search_text 30)

/-- The scan loop of get_accurate_page_number, lines 102-112: walk the
pages in order carrying the 0-based page index, skip a page whose text
extraction raised, and stop at the first page whose text matches,
returning its 1-based number. -/
def scanPages (search_text : String) : List (Option String) → Nat → Option Nat
  | [], _ => none
  | none :: rest, page_num => scanPages search_text rest (page_num + 1)
  | some text :: rest, page_num =>
    if pageHit search_text text then some (page_num + 1)
    else scanPages search_text rest (page_num + 1)

/-- From src/backend/rag_engine.py, get_accurate_page_number: returns "?"
when pypdf is missing, when the PDF cannot be opened, or when the snippet
is shorter than 10 characters; otherwise searches the pages for the
stripped first-50-character key and returns the 1-based number of the
first matching page, or "?" when no page matches.  The function is total:
every failure path of the Python code is caught and yields "?". -/
def get_accurate_page_number (hasPypdf : Bool) (pdf : PdfAccess) (content_snippet : String) :
    String :=
  if !hasPypdf then "?"
  else
    match pdf with
    | PdfAccess.unreadable => "?"
    | PdfAccess.readable pages =>
      if content_snippet.length < 10 then "?"
      else
        match scanPages (pyStrip (pyTake content_snippet 50)) pages 0 with
        | some n => toString n
        | none => "?"

/-- Index of the first matching page, skipping failed pages but counting
them in the numbering.  This is the claim C4 description of the scan,
stated independently of the accumulator loop of the source. -/
def specFirstHit (search_text : String) : List (Option String) → Option Nat
  | [] => none
  | some text :: rest =>
    if pageHit search_text text then some 0
    else (specFirstHit search_text rest).map (· + 1)
  | none :: rest => (specFirstHit search_text rest).map (· + 1)

/-- Page resolution exactly as claim C4 words it: the search key is the
first 50 characters of the snippet, taken as they are. -/
def specResolvePage (pages : List (Option String)) (content_snippet : String) : String :=
  match specFirstHit (pyTake content_snippet 50) pages with
  | some i => toString (i + 1)
  | none => "?"

/-- Page resolution as the amended claim C4 words it: the search key is
the first 50 characters of the snippet, stripped of leading and trailing
whitespace. -/
def specResolvePageStripped (pages : List (Option String)) (content_snippet : String) : String :=
  match specFirstHit (pyStrip (pyTake content_snippet 50)) pages with
  | some i => toString (i + 1)
  | none => "?"

/-- Decidable statement that no page of the PDF matches the search key:
every successfully extracted page text fails the match condition. -/
def noPageHits (search_text : String) (pages : List (Option String)) : Bool :=
  pages.all (fun p =>
    match p with
    | some text => !(pageHit search_text text)
    | none => true)

/-- One retrieved source node as query_rag consumes it: the metadata
fields file_name and page_label, which the dict lookups default to
Unknown File and "?" when absent, and the text content of the node (the
Python attribute fallback chain get_content / text / content / str all
de­note the node text and are modelled by one field). -/
structure SourceNode where
  file_name : Option String
  page_label : Option String
  content : String

/-- The per-node citation metadata of query_rag, lines 206-237: read
file_name and page_label with their defaults, and when pypdf is present,
the file name is a real name, and the PDF exists under the upload
directory (env returns its access state), replace page_label by the
accurate page number unless that lookup returned "?". -/
def enrich (hasPypdf : Bool) (env : String → Option PdfAccess) (node : SourceNode) :
    String × String :=
  let file_name := node.file_name.getD "Unknown File"
  let page_label := node.page_label.getD "?"
  if hasPypdf && !(file_name == "") && !(file_name == "Unknown File") then
    match env file_name with
    | some pdf =>
      let accurate := get_accurate_page_number hasPypdf pdf node.content
      (file_name, if accurate != "?" then accurate else page_label)
    | none => (file_name, page_label)
  else
    (file_name, page_label)

/-- The dedup key of line 239: the file name and page label joined by a
vertical bar. -/
def keyOf (p : String × String) : String :=
  p.1 ++ "|" ++ p.2

/-- The rendered citation string of line 242. -/
def renderCitation (p : String × String) : String :=
  p.1 ++ " (Page " ++ p.2 ++ ")"

/-- The citation loop of query_rag, lines 203-242, on the enriched
(file name, page label) pairs: keep a seen set of keys and append a
rendered citation only for a key not seen before. -/
def assembleCitations (seen : List String) : List (String × String) → List String
  | [] => []
  | p :: rest =>
    if seen.contains (keyOf p) then assembleCitations seen rest
    else renderCitation p :: assembleCitations (keyOf p :: seen) rest

/-- The same loop, recorded at the level of the (file name, page label)
pairs it emits rather than the rendered strings. -/
def assemblePairs (seen : List String) : List (String × String) → List (String × String)
  | [] => []
  | p :: rest =>
    if seen.contains (keyOf p) then assemblePairs seen rest
    else p :: assemblePairs (keyOf p :: seen) rest

/-- Keep only the first occurrence of every key, in first-appearance
order: the specification-level description of deduplication.  The head is
kept and every later pair carrying the same key is discarded from the
deduplicated tail. -/
def firstOccBy (k : String × String → String) : List (String × String) → List (String × String)
  | [] => []
  | p :: rest => p :: (firstOccBy k rest).filter (fun q => !(k q == k p))

/-- The canonical refusal phrase tested on line 199 of rag_engine.py. -/
def REFUSAL : String := "I cannot find this information"

/-- From src/backend/rag_engine.py, query_rag, lines 196-244: given the
answer text produced by the external LLM for the synthesis prompt and the
retrieved source nodes of the response, return the answer together with
its citations, which are forced empty when the answer contains the
refusal phrase. -/
def query_rag (hasPypdf : Bool) (env : String → Option PdfAccess)
    (answer_text : String) (nodes : List SourceNode) : String × List String :=
  (answer_text,
    if pyContains answer_text REFUSAL then []
    else assembleCitations [] (nodes.map (enrich hasPypdf env)))

/-- One entry of the Chroma collection as delete_pdf_from_database sees
it: an opaque identifier and the file_name metadata it filters on. -/
structure ChromaEntry where
  eid : Nat
  file_name : String

/-- From src/backend/rag_engine.py, delete_pdf_from_database: the Chroma
collection is an explicit state, and none stands for the collection
being unavailable, so that get or delete raises and the broad except
returns False.  When the collection is available, the entries matching
the file name are fetched and deleted when any exist, and True is
returned whether or not anything matched. -/
def delete_pdf_from_database (col : Option (List ChromaEntry)) (pdf_filename : String) :
    Bool × Option (List ChromaEntry) :=
  match col with
  | none => (false, none)
  | some entries =>
    let matching := entries.filter (fun e => e.file_name == pdf_filename)
    if matching.isEmpty then (true, some entries)
    else (true, some (entries.filter (fun e => !(e.file_name == pdf_filename))))

/-- One loaded document.  Modelled from the spec, section 4.2 step 2:
the external Document Loader produces one Document per PDF file; only
its text matters to the entry count. -/
structure Document where
  text : String

/-- Modelled from the spec: the external Chunker (SentenceSplitter with
chunk_size 512 and chunk_overlap 50) splits a text into fixed-size
passages of at most 512 units with a 50-unit overlap, so consecutive
chunks start 462 units apart, and a text that fits in one chunk yields
exactly one chunk.  The fuel argument, set to the text length, bounds
the recursion; every step consumes at least 462 characters, so the fuel
never runs out on the recursive path. -/
def chunkTextAux : Nat → List Char → List (List Char)
  | 0, s => [s]
  | Nat.succ fuel, s =>
    if s.length ≤ 512 then [s]
    else s.take 512 :: chunkTextAux fuel (s.drop 462)

/-- Chunk a text with the fuel set to its length. -/
def chunkText (s : List Char) : List (List Char) :=
  chunkTextAux s.length s

/-- The passages derived from one document. -/
def docChunks (d : Document) : List String :=
  (chunkText d.text.data).map (fun c => ⟨c⟩)

/-- The dict results of ingest_pdfs: either a success carrying
document_count, or an error carrying a message. -/
inductive IngestResult where
  | success : Nat → IngestResult
  | error : String → IngestResult

/-- From src/backend/rag_engine.py, ingest_pdfs, lines 149-159: the load
step of SimpleDirectoryReader is an input, an Except whose error case is
the exception path of the try block.  On zero documents an error dict is
returned and the collection is untouched; otherwise the chunks of every
document are embedded and added to the Chroma collection (the index is
built over the existing collection without clearing it) and a success
dict carrying the number of loaded documents is returned. -/
def ingest_pdfs (load : Except String (List Document)) (entries : List String) :
    IngestResult × List String :=
  match load with
  | Except.error e => (IngestResult.error e, entries)
  | Except.ok docs =>
    if docs.isEmpty then (IngestResult.error "No PDFs found", entries)
    else (IngestResult.success docs.length, entries ++ (docs.map docChunks).flatten)

/-- The stats dict of get_index_stats, lines 280-285: status and the
collection count. -/
structure StatsResult where
  status : String
  document_count : Nat
deriving DecidableEq

/-- From src/backend/rag_engine.py, get_index_stats: the document_count
field reports collection.count(), the number of entries of the Chroma
collection.  The except branch depends only on the external client being
unavailable and is not modelled. -/
def get_index_stats (entries : List String) : StatsResult :=
  ⟨"success", entries.length⟩

/-- One row of the conversations table: the autoincremented primary key
and the stored columns. -/
structure ConvRow where
  rowid : Nat
  anon_user_id : String
  role : String
  content : String
  mode : String

/-- One turn as get_history returns it: the selected role, content and
mode columns. -/
structure Turn where
  role : String
  content : String
  mode : String

/-- From src/backend/db.py, save_message: insert a new row; the
autoincrement key of an append-only table is modelled as one more than
the current row count, so rows are stored in increasing rowid order. -/
def save_message (db : List ConvRow) (anon_user_id role content mode : String) :
    List ConvRow :=
  db ++ [⟨db.length + 1, anon_user_id, role, content, mode⟩]

/-- From src/backend/db.py, get_history: select role, content and mode
of every row of the user, ordered by id.  The table is append-only with
increasing rowids, so the stored order is the id order and the SQL
ORDER BY id is the filter in stored order.  There is no LIMIT clause. -/
def get_history (db : List ConvRow) (anon_user_id : String) : List Turn :=
  (db.filter (fun r => r.anon_user_id == anon_user_id)).map
    (fun r => ⟨r.role, r.content, r.mode⟩)

/-- Save the same user message n times, as n calls of save_message. -/
def iterSave : Nat → List ConvRow → List ConvRow
  | 0, db => db
  | Nat.succ n, db => iterSave n (save_message db "user-a" "user" "question" "default")

/-! ## Theorems: the claims and their supporting lemmas -/

/-- formatHistory always equals the role-tagged newline join, including
for the empty history, where both sides are the empty string. -/
theorem formatHistory_eq (h : List ChatMsg) :
    formatHistory h
      = String.intercalate "\n" (h.map (fun m => m.role.toUpper ++ ": " ++ m.content)) := by
  cases h with
  | nil => rfl
  | cons m t => rfl

/-- Claim C9: for every question, system prompt and chat history, the
synthesis prompt built by query_rag contains, in this order, the system
constraints, then the chat history formatted as role-tagged lines in the
given chronological order, then the question. -/
theorem c9_prompt_order (system_prompt question : String) (h : List ChatMsg) :
    ∃ a b c,
      buildFullQuery system_prompt question h
        = a ++ system_prompt ++ b ++
            String.intercalate "\n" (h.map (fun m => m.role.toUpper ++ ": " ++ m.content)) ++
            c ++ question ++ "\n" := by
  refine ⟨"\n", "\n\nPREVIOUS CONVERSATION HISTORY:\n",
    "\n\nINSTRUCTION:\nBased on the course materials provided and the conversation history above, answer this question:\n", ?_⟩
  rw [buildFullQuery, formatHistory_eq]

/-- Claim C10: apply_its_mode always returns a string containing the
original question verbatim, and for every mode other than hint and
socratic it returns the question completely unchanged. -/
theorem c10_mode_preserves_question (question mode : String) :
    (∃ a b, apply_its_mode question mode = a ++ question ++ b) ∧
      (mode ≠ "hint" → mode ≠ "socratic" → apply_its_mode question mode = question) := by
  constructor
  · unfold apply_its_mode
    by_cases h1 : mode == "hint"
    · exact ⟨"Give a helpful hint without revealing the full answer.\n\nQuestion:\n", "",
        by simp [h1]⟩
    · by_cases h2 : mode == "socratic"
      · exact ⟨"Guide the student using questions instead of direct answers.\n\nQuestion:\n", "",
          by simp [h1, h2]⟩
      · exact ⟨"", "", by simp [h1, h2]⟩
  · intro h1 h2
    unfold apply_its_mode
    simp [h1, h2]

/-- Witness for claim C10 at a concrete input: the quiz mode is neither
hint nor socratic, so the question comes back unchanged. -/
theorem c10_witness : apply_its_mode "What is a monad?" "quiz" = "What is a monad?" :=
  (c10_mode_preserves_question "What is a monad?" "quiz").2 (by decide) (by decide)

/-- The accumulator loop of the source computes the same first hit as the
direct first-index description, shifted by the starting page index. -/
theorem scanPages_eq_specFirstHit (search_text : String) :
    ∀ (pages : List (Option String)) (n : Nat),
      scanPages search_text pages n = (specFirstHit search_text pages).map (fun i => n + i + 1) := by
  intro pages
  induction pages with
  | nil => intro n; rfl
  | cons p rest ih =>
    intro n
    cases p with
    | none =>
      rw [scanPages, specFirstHit, ih, Option.map_map]
      apply congrFun
      apply congrArg
      funext i
      simp only [Function.comp]
      omega
    | some text =>
      by_cases h : pageHit search_text text
      · simp only [scanPages, specFirstHit, h, if_true]
        rfl
      · rw [scanPages, specFirstHit, if_neg h, if_neg h, ih, Option.map_map]
        apply congrFun
        apply congrArg
        funext i
        simp only [Function.comp]
        omega

/-- Counterexample to claim C4 as stated: the code strips the
first-50-character key before searching (line 99 of rag_engine.py), the
claim omits the strip.  For the snippet of ten characters ending in a
space and a one-page PDF whose text is the same nine letters without the
space, the code finds page 1 while the unstripped key of the claim
occurs nowhere, so the described scan yields "?". -/
theorem c4_counterexample :
    10 ≤ ("abcdefghi " : String).length ∧
      get_accurate_page_number true (PdfAccess.readable [some "abcdefghi"]) "abcdefghi " = "1" ∧
      specResolvePage [some "abcdefghi"] "abcdefghi " = "?" ∧
      get_accurate_page_number true (PdfAccess.readable [some "abcdefghi"]) "abcdefghi "
        ≠ specResolvePage [some "abcdefghi"] "abcdefghi " := by
  refine ⟨by decide, by decide, by decide, by decide⟩

/-- Claim C4 as amended: for every readable PDF and snippet of length at
least 10, get_accurate_page_number takes the first 50 characters of the
snippet stripped of leading and trailing whitespace as the search key,
scans pages in order from page 1, skipping pages whose extraction raised,
and returns the 1-based number of the first page whose text contains the
key or its first-30-character prefix, and "?" when no page matches. -/
theorem c4_amended_thm (pages : List (Option String)) (content_snippet : String)
    (h : 10 ≤ content_snippet.length) :
    get_accurate_page_number true (PdfAccess.readable pages) content_snippet
      = specResolvePageStripped pages content_snippet := by
  rw [get_accurate_page_number, specResolvePageStripped]
  have h10 : ¬ content_snippet.length < 10 := by omega
  simp only [Bool.not_true, if_false, h10, if_neg, scanPages_eq_specFirstHit]
  cases specFirstHit (pyStrip (pyTake content_snippet 50)) pages with
  | none => rfl
  | some i =>
    simp only [Option.map_some]
    norm_num

/-- Witness for the amended claim C4 at a concrete input: a ten character
snippet found verbatim on the only page. -/
theorem c4_amended_witness :
    get_accurate_page_number true (PdfAccess.readable [some "abcdefghij"]) "abcdefghij"
      = specResolvePageStripped [some "abcdefghij"] "abcdefghij" :=
  c4_amended_thm [some "abcdefghij"] "abcdefghij" (by decide)

/-- When no page matches, the scan loop returns none from any starting
index. -/
theorem scanPages_eq_none_of_noPageHits (search_text : String) :
    ∀ (pages : List (Option String)), noPageHits search_text pages = true →
      ∀ n, scanPages search_text pages n = none := by
  intro pages
  induction pages with
  | nil => intro _ n; rfl
  | cons p rest ih =>
    intro hall n
    simp only [noPageHits, List.all_cons, Bool.and_eq_true] at hall
    cases p with
    | none =>
      rw [scanPages]
      exact ih (by simpa [noPageHits] using hall.2) (n + 1)
    | some text =>
      rw [scanPages]
      have : pageHit search_text text = false := by
        have := hall.1
        simpa using this
      rw [this]
      simp only [if_false, Bool.false_eq_true]
      exact ih (by simpa [noPageHits] using hall.2) (n + 1)

/-- Claim C5: get_accurate_page_number never raises (the Lean embedding
is a total function and every Python failure path is caught); it returns
"?" whenever the snippet is shorter than 10 characters, whenever the PDF
cannot be opened or read, and whenever no page of a readable PDF matches
the search key. -/
theorem c5_soft_failure (hasPypdf : Bool) (pdf : PdfAccess) (content_snippet : String) :
    (content_snippet.length < 10 →
        get_accurate_page_number hasPypdf pdf content_snippet = "?") ∧
      get_accurate_page_number hasPypdf PdfAccess.unreadable content_snippet = "?" ∧
      (∀ pages, pdf = PdfAccess.readable pages →
        noPageHits (pyStrip (pyTake content_snippet 50)) pages = true →
        get_accurate_page_number hasPypdf pdf content_snippet = "?") := by
  refine ⟨?_, ?_, ?_⟩
  · intro hshort
    cases hasPypdf with
    | false => rfl
    | true =>
      cases pdf with
      | unreadable => rfl
      | readable pages =>
        rw [get_accurate_page_number]
        simp [hshort]
  · cases hasPypdf with
    | false => rfl
    | true => rfl
  · intro pages hpdf hnone
    subst hpdf
    cases hasPypdf with
    | false => rfl
    | true =>
      rw [get_accurate_page_number]
      by_cases hshort : content_snippet.length < 10
      · simp [hshort]
      · simp [hshort, scanPages_eq_none_of_noPageHits _ pages hnone 0]

/-- Witness for claim C5 at concrete inputs: a short snippet, an
unreadable PDF, and a readable PDF none of whose pages contain the key. -/
theorem c5_witness :
    get_accurate_page_number true (PdfAccess.readable [some "hello world text"]) "abc" = "?" ∧
      get_accurate_page_number true PdfAccess.unreadable "abcdefghij" = "?" ∧
      get_accurate_page_number true (PdfAccess.readable [some "zzzzzz", none]) "abcdefghij" = "?" :=
  ⟨(c5_soft_failure true (PdfAccess.readable [some "hello world text"]) "abc").1 (by decide),
    (c5_soft_failure true PdfAccess.unreadable "abcdefghij").2.1,
    (c5_soft_failure true (PdfAccess.readable [some "zzzzzz", none]) "abcdefghij").2.2
      [some "zzzzzz", none] rfl (by decide)⟩

/-- Claim C1: whenever the answer text contains the canonical refusal
phrase, the citations of the query_rag result are empty, whatever was
retrieved. -/
theorem c1_refusal_empty_citations (hasPypdf : Bool) (env : String → Option PdfAccess)
    (answer_text : String) (nodes : List SourceNode)
    (h : pyContains answer_text REFUSAL = true) :
    (query_rag hasPypdf env answer_text nodes).2 = [] := by
  rw [query_rag]
  simp [h]

/-- Witness for claim C1 at a concrete input: the full refusal sentence
of the system prompt contains the refusal phrase, and the citations come
back empty although a source node was retrieved. -/
theorem c1_witness :
    (query_rag true (fun _ => none)
        "I cannot find this information in the provided course content."
        [⟨some "lecture1.pdf", some "2", "Newton laws of motion are fundamental"⟩]).2 = [] :=
  c1_refusal_empty_citations true (fun _ => none)
    "I cannot find this information in the provided course content."
    [⟨some "lecture1.pdf", some "2", "Newton laws of motion are fundamental"⟩]
    (by decide)

/-- Unfolding of list membership for the seen set. -/
theorem contains_cons_eq (s : List String) (k x : String) :
    (k :: s).contains x = (x == k || s.contains x) := rfl

/-- The rendered citations are exactly the emitted pairs, rendered. -/
theorem assembleCitations_eq_map_render (pairs : List (String × String)) :
    ∀ seen, assembleCitations seen pairs = (assemblePairs seen pairs).map renderCitation := by
  induction pairs with
  | nil => intro seen; rfl
  | cons p rest ih =>
    intro seen
    rw [assembleCitations, assemblePairs]
    split
    · exact ih seen
    · rw [List.map_cons, ih]

/-- The seen-set loop emits exactly the first-occurrence pairs whose key
is not already in the seen set, in first-appearance order. -/
theorem assemblePairs_eq_firstOccBy (pairs : List (String × String)) :
    ∀ seen, assemblePairs seen pairs
      = (firstOccBy keyOf pairs).filter (fun q => !(seen.contains (keyOf q))) := by
  induction pairs with
  | nil => intro seen; rfl
  | cons p rest ih =>
    intro seen
    rw [assemblePairs]
    split
    · next h =>
      rw [firstOccBy, List.filter_cons]
      simp only [h, Bool.not_true, Bool.false_eq_true, if_false]
      rw [ih seen, List.filter_filter]
      apply List.filter_congr
      intro q hq
      by_cases hk : (keyOf q == keyOf p) = true
      · have hq2 : keyOf q = keyOf p := by simpa using hk
        rw [hq2, h]
        rfl
      · have hk' : (keyOf q == keyOf p) = false := by simpa using hk
        rw [hk', Bool.not_false, Bool.and_true]
    · next h =>
      have hb : seen.contains (keyOf p) = false := by
        cases hc : seen.contains (keyOf p)
        · rfl
        · exact absurd hc h
      rw [firstOccBy, List.filter_cons]
      simp only [hb, Bool.not_false, if_true]
      congr 1
      rw [ih (keyOf p :: seen), List.filter_filter]
      apply List.filter_congr
      intro q hq
      rw [contains_cons_eq, Bool.not_or, Bool.and_comm]

/-- Everything emitted by firstOccBy comes from the input list. -/
theorem mem_of_mem_firstOccBy (k : String × String → String) (l : List (String × String)) :
    ∀ b, b ∈ firstOccBy k l → b ∈ l := by
  induction l with
  | nil =>
    intro b hb
    exact absurd hb (by simp [firstOccBy])
  | cons p rest ih =>
    intro b hb
    rw [firstOccBy] at hb
    rcases List.mem_cons.mp hb with h | h
    · exact h ▸ List.mem_cons_self p rest
    · exact List.mem_cons_of_mem p (ih b (List.mem_of_mem_filter h))

/-- The keys of the firstOccBy output are pairwise distinct. -/
theorem nodup_keys_firstOccBy (k : String × String → String) (l : List (String × String)) :
    ((firstOccBy k l).map k).Nodup := by
  induction l with
  | nil => simp [firstOccBy]
  | cons p rest ih =>
    rw [firstOccBy, List.map_cons]
    refine List.nodup_cons.mpr ⟨?_, ?_⟩
    · intro hmem
      rcases List.mem_map.mp hmem with ⟨b, hb, hkb⟩
      have hcond := List.of_mem_filter hb
      rw [hkb] at hcond
      simp at hcond
    · exact List.Nodup.sublist (List.Sublist.map k (List.filter_sublist _)) ih

/-- Claim C3: within one query response, the emitted citations carry
pairwise distinct (file name, page label) keys, they are exactly the
first occurrences of the enriched node keys in first-appearance order,
and the rendered citation list of query_rag is their rendering. -/
theorem c3_citations_dedup_first_seen (hasPypdf : Bool) (env : String → Option PdfAccess)
    (nodes : List SourceNode) :
    assembleCitations [] (nodes.map (enrich hasPypdf env))
        = (assemblePairs [] (nodes.map (enrich hasPypdf env))).map renderCitation ∧
      assemblePairs [] (nodes.map (enrich hasPypdf env))
        = firstOccBy keyOf (nodes.map (enrich hasPypdf env)) ∧
      ((assemblePairs [] (nodes.map (enrich hasPypdf env))).map keyOf).Nodup := by
  have hfilter : ∀ (l : List (String × String)),
      l.filter (fun q => !(([] : List String).contains (keyOf q))) = l := by
    intro l
    apply List.filter_eq_self.mpr
    intro q _
    rfl
  refine ⟨assembleCitations_eq_map_render _ [], ?_, ?_⟩
  · rw [assemblePairs_eq_firstOccBy _ [], hfilter]
  · rw [assemblePairs_eq_firstOccBy _ [], hfilter]
    exact nodup_keys_firstOccBy keyOf (nodes.map (enrich hasPypdf env))

/-- Claim C6: delete_pdf_from_database never raises (its embedding is a
total function); on an available collection it returns True whether
matching entries existed or not, and afterwards the collection holds
exactly the entries whose file name differs from the target; when the
underlying lookup or delete errors it returns False. -/
theorem c6_delete_total (entries : List ChromaEntry) (name : String) :
    (delete_pdf_from_database (some entries) name).1 = true ∧
      (delete_pdf_from_database (some entries) name).2
        = some (entries.filter (fun e => !(e.file_name == name))) ∧
      delete_pdf_from_database none name = (false, none) := by
  refine ⟨?_, ?_, rfl⟩
  · rw [delete_pdf_from_database]
    split <;> rfl
  · rw [delete_pdf_from_database]
    split
    · next hempty =>
      have : entries.filter (fun e => e.file_name == name) = [] := by
        simpa [List.isEmpty_iff] using hempty
      have hall : ∀ e ∈ entries, (e.file_name == name) = false := by
        intro e he
        cases hcc : (e.file_name == name)
        · rfl
        · have hmem : e ∈ entries.filter (fun x => x.file_name == name) :=
            List.mem_filter.mpr ⟨he, hcc⟩
          rw [this] at hmem
          exact absurd hmem (List.not_mem_nil e)
      have : entries.filter (fun e => !(e.file_name == name)) = entries := by
        apply List.filter_eq_self.mpr
        intro e he
        rw [hall e he]
        rfl
      rw [this]
    · rfl

/-- Every text yields at least one chunk. -/
theorem chunkTextAux_ne_nil (fuel : Nat) (s : List Char) : chunkTextAux fuel s ≠ [] := by
  cases fuel with
  | zero => simp [chunkTextAux]
  | succ n =>
    rw [chunkTextAux]
    split
    · simp
    · simp

/-- A document list yields at least one chunk per document. -/
theorem length_le_join_docChunks (load : List Document) :
    load.length ≤ ((load.map docChunks).flatten).length := by
  induction load with
  | nil => simp
  | cons d rest ih =>
    rw [List.map_cons, List.flatten_cons, List.length_append, List.length_cons]
    have hd : 1 ≤ (docChunks d).length := by
      have hne : chunkText d.text.data ≠ [] := chunkTextAux_ne_nil _ _
      have : docChunks d ≠ [] := by
        rw [docChunks]
        simpa using hne
      exact List.length_pos.mpr this
    omega

set_option maxRecDepth 8000 in
/-- Counterexample to claim C2 as stated: get_index_stats counts the
entries of the Chroma collection, which are chunks, not PDF files.  A
single document of 600 characters is split into two chunks, so after
ingesting it into an empty collection the ingest result reports one
document while get_index_stats reports two. -/
theorem c2_counterexample :
    (ingest_pdfs (Except.ok [⟨⟨List.replicate 600 'a'⟩⟩]) []).1 = IngestResult.success 1 ∧
      (get_index_stats (ingest_pdfs (Except.ok [⟨⟨List.replicate 600 'a'⟩⟩]) []).2).document_count
        = 2 ∧
      (get_index_stats (ingest_pdfs (Except.ok [⟨⟨List.replicate 600 'a'⟩⟩]) []).2).document_count
        ≠ 1 :=
  ⟨rfl, by rfl, by decide⟩

/-- Claim C2 as amended: a successful ingest_pdfs call returns the
number of loaded documents in its success result, while get_index_stats
afterwards reports the total entry count of the collection, namely the
prior entry count plus the number of chunks produced from the loaded
documents; that total is never below the number of loaded documents and
equals it only when the collection started empty and every document
produced exactly one chunk. -/
theorem c2_amended_thm (load : List Document) (entries : List String) (h : load ≠ []) :
    (ingest_pdfs (Except.ok load) entries).1 = IngestResult.success load.length ∧
      (get_index_stats (ingest_pdfs (Except.ok load) entries).2).document_count
        = entries.length + ((load.map docChunks).flatten).length ∧
      load.length ≤ ((load.map docChunks).flatten).length := by
  have hne : load.isEmpty = false := by
    cases load with
    | nil => exact absurd rfl h
    | cons d rest => rfl
  refine ⟨?_, ?_, length_le_join_docChunks load⟩
  · rw [ingest_pdfs]
    simp [hne]
  · rw [ingest_pdfs]
    simp [hne, get_index_stats]

/-- Witness for the amended claim C2 at a concrete input: one short
document ingested into an empty collection. -/
theorem c2_amended_witness :
    (ingest_pdfs (Except.ok [⟨"short"⟩]) []).1
        = IngestResult.success ([(⟨"short"⟩ : Document)] : List Document).length ∧
      (get_index_stats (ingest_pdfs (Except.ok [⟨"short"⟩]) []).2).document_count
        = ([] : List String).length + ((([(⟨"short"⟩ : Document)] : List Document).map docChunks).flatten).length ∧
      ([(⟨"short"⟩ : Document)] : List Document).length
        ≤ ((([(⟨"short"⟩ : Document)] : List Document).map docChunks).flatten).length :=
  c2_amended_thm [⟨"short"⟩] [] (by simp)

/-- Claim C7: ingesting a directory from which zero documents are loaded
returns an error result and leaves the collection, and hence the stats
count, unchanged.  The same holds when the loader raises. -/
theorem c7_empty_corpus (entries : List String) :
    (ingest_pdfs (Except.ok []) entries).1 = IngestResult.error "No PDFs found" ∧
      (ingest_pdfs (Except.ok []) entries).2 = entries ∧
      get_index_stats (ingest_pdfs (Except.ok []) entries).2 = get_index_stats entries ∧
      ∀ m, (ingest_pdfs (Except.error m) entries).2 = entries :=
  ⟨rfl, rfl, rfl, fun _ => rfl⟩

/-- Claim C8 evaluated at the failing input: after 11 saved turns for
one anonymous user, get_history returns all 11 turns, exceeding the
bound of 10 most recent turns that the claim states. -/
theorem c8_unbounded_history :
    (get_history (iterSave 11 []) "user-a").length = 11 ∧
      10 < (get_history (iterSave 11 []) "user-a").length := by
  refine ⟨by decide, by decide⟩
